import Mathlib

/-!
# Verification of the langfuse-go LangGraph hook and media upload pipeline

Shallow embedding of the two core engines of the repository:

* the event-to-record state machine of `langgraph/hook.go` (`Hook`,
  `handleGraphStart`, `handleGraphEnd`, `handleNodeStart`, `handleNodeEnd`,
  the classifier `isAIOperation` and its string helpers), and
* the media deduplication/upload pipeline (`MediaUploader`, `Upload`,
  `UploadWithCallback`, `processUpload`, `GetStatus`, `WaitForUpload`,
  `Shutdown`).

Modelling conventions, used throughout:

* Go maps (`map[string]T`) become association lists `List (String × T)`
  with Go assignment semantics (`aset`: overwrite in place if the key is
  present, append otherwise) and Go lookup (`alookup`).
* `uuid.New().String()` is nondeterministic in Go; it is modelled by a
  fresh-name counter carried in the state (`uuidStr n`), which captures
  the only property the code relies on: each call yields a fresh,
  non-empty identifier.
* The Langfuse client (the Sink) is an external collaborator per the
  spec; every call made to it is recorded in a ghost append-only log
  (`sink : List SinkOp`) and, as the spec states, it accepts create and
  update operations keyed by the caller-supplied ids and its errors are
  only logged by the hook, so calls are modelled as always succeeding
  and echoing the record handed to them.
* Wall-clock reads (`time.Now()`) are modelled by a logical clock field;
  durations appear as integers of milliseconds.
* Go `interface{}` payload values become the inductive `GoVal`.
-/

/-- Go `interface{}` values as they occur in event payloads and metadata. -/
inductive GoVal where
  | str : String → GoVal
  | int : Int → GoVal
  | flt : Rat → GoVal
  | bool : Bool → GoVal
  | null : GoVal
  | map : List (String × GoVal) → GoVal

/-- A Go `map[string]interface{}` as an association list. -/
abbrev GoMap := List (String × GoVal)

/-- Go map lookup `m[k]` (returns `none` for a missing key, like the
zero-value/ok idiom). -/
def alookup {α : Type} (k : String) : List (String × α) → Option α
  | [] => none
  | (k', v) :: t => if k = k' then some v else alookup k t

/-- Go map assignment `m[k] = v`: overwrite the existing entry in place,
append a new entry otherwise. -/
def aset {α : Type} (k : String) (v : α) : List (String × α) → List (String × α)
  | [] => [(k, v)]
  | (k', v') :: t => if k = k' then (k, v) :: t else (k', v') :: aset k v t

/-- Go map update through an obtained pointer: apply `f` if the key is
present, leave the map unchanged otherwise (the
`if status, exists := m[k]; exists { mutate }` idiom). -/
def aupdate {α : Type} (k : String) (f : α → α) : List (String × α) → List (String × α)
  | [] => []
  | (k', v) :: t => if k = k' then (k', f v) :: t else (k', v) :: aupdate k f t

/-! ## String helpers of hook.go (`toLowerCase`, `indexOf`,
`containsString`, `containsIgnoreCase`), working on byte/character
lists as the Go code works on bytes (all inputs of interest are ASCII). -/

/-- One step of `toLowerCase`: ASCII upper-case letters are shifted by
`'a' - 'A'`, everything else is kept. -/
def lowerChar (c : Char) : Char :=
  if 'A' ≤ c ∧ c ≤ 'Z' then Char.ofNat (c.toNat + 32) else c

/-- `toLowerCase` from hook.go, on the character list of a string. -/
def lowerL (s : List Char) : List Char := s.map lowerChar

/-- `toLowerCase` from hook.go. -/
def toLowerCase (s : String) : String := ⟨lowerL s.data⟩

/-- The slice test `s[i:i+len(substr)] == substr` of `indexOf`:
`sub` begins `s`. -/
def isPrefixL : List Char → List Char → Bool
  | [], _ => true
  | _ :: _, [] => false
  | a :: as, b :: bs => a == b && isPrefixL as bs

/-- `indexOf` from hook.go. The Go `for` loop scanning positions
`i = 0 .. len(s)-len(substr)` is expressed as recursion over the
suffixes of `s`; the two agree because the slice test fails whenever
fewer than `len(substr)` characters remain. -/
def indexOfL : List Char → List Char → Int
  | [], sub => if isPrefixL sub [] then 0 else -1
  | a :: t, sub =>
    if isPrefixL sub (a :: t) then 0
    else
      let r := indexOfL t sub
      if r < 0 then -1 else r + 1

/-- `containsString` from hook.go:
`len(s) >= len(substr) && indexOf(s, substr) >= 0`. -/
def containsStringL (s sub : List Char) : Bool :=
  decide (sub.length ≤ s.length) && decide (0 ≤ indexOfL s sub)

/-- `containsIgnoreCase` from hook.go:
`len(s) >= len(substr) && (s == substr || containsString(toLowerCase(s), toLowerCase(substr)))`. -/
def containsIgnoreCase (s sub : String) : Bool :=
  decide (sub.length ≤ s.length) &&
    (s == sub || containsStringL (lowerL s.data) (lowerL sub.data))

/-- The fixed vocabulary of `isAIOperation` (`aiPatterns`), in source
order. -/
def aiPatterns : List String :=
  ["ai", "llm", "generate", "completion", "chat",
   "gpt", "claude", "gemini", "openai"]

/-- `isAIOperation` from hook.go: the loop with early `return true` is
`List.any` over the pattern vocabulary. -/
def isAIOperation (nodeName : String) : Bool :=
  aiPatterns.any fun pattern => containsIgnoreCase nodeName pattern

/-- Specification-side notion of substring: `sub` occurs contiguously
inside `s`. Used to characterise what the scanning loop computes. -/
def SubstrOf (sub s : List Char) : Prop :=
  ∃ pre post, s = pre ++ sub ++ post

/-- Specification-side notion of case-insensitive substring match of a
pattern against a name. -/
def CIContains (s pat : String) : Prop :=
  SubstrOf (lowerL pat.data) (lowerL s.data)

/-! ## Data model of the hook (langgraph/hook.go, langgraph/types.go and
the record types of the `model` package as used by the hook). -/

/-- The fresh-identifier supply standing in for `uuid.New().String()`. -/
def uuidStr (n : Nat) : String := "uuid-" ++ toString n

/-- `graph.TraceEvent` values dispatched by `OnEvent`. -/
inductive TraceEvent where
  | graphStart | graphEnd | nodeStart | nodeEnd | nodeError | edgeTraversal
deriving DecidableEq

/-- `graph.TraceSpan`: the external lifecycle event handed to the hook.
Times are logical instants, `duration` is in milliseconds. -/
structure TraceSpan where
  id : String
  parentID : String := ""
  event : TraceEvent
  nodeName : String := ""
  startTime : Nat := 0
  endTime : Nat := 0
  duration : Int := 0
  state : GoVal := GoVal.null
  error : Option String := none
  metadata : GoMap := []

/-- `model.Usage`. -/
structure Usage where
  input : Int := 0
  output : Int := 0
  total : Int := 0
deriving DecidableEq

/-- `model.Trace` as populated by the hook. -/
structure ModelTrace where
  id : String
  timestamp : Option Nat := none
  name : String := ""
  userID : String := ""
  sessionID : String := ""
  input : GoVal := GoVal.null
  output : GoVal := GoVal.null
  metadata : GoMap := []
  tags : List String := []

/-- `model.Span` as populated by the hook. -/
structure ModelSpan where
  id : String
  traceID : String := ""
  name : String := ""
  startTime : Option Nat := none
  endTime : Option Nat := none
  input : GoVal := GoVal.null
  output : GoVal := GoVal.null
  metadata : GoMap := []

/-- `model.Generation` as populated by the hook. -/
structure ModelGeneration where
  id : String
  traceID : String := ""
  name : String := ""
  startTime : Option Nat := none
  endTime : Option Nat := none
  model : String := ""
  input : GoVal := GoVal.null
  output : GoVal := GoVal.null
  metadata : GoMap := []
  modelParameters : GoMap := []
  usage : Usage := {}

/-- Modelled from the spec: one call accepted by the Sink (the Langfuse
client, an external collaborator reached through `h.client.Trace`,
`h.client.Span`, `h.client.Generation` and `h.client.Flush`, whose
implementation is outside `src/`). The Sink accepts create/update
operations keyed by the caller-supplied ids, never fails the hook (its
errors are logged and swallowed), and echoes the record it was given.
The ghost log records every call in order. -/
inductive SinkOp where
  | traceOp : ModelTrace → SinkOp
  | spanOp : ModelSpan → Option String → SinkOp
  | generationOp : ModelGeneration → Option String → SinkOp
  | flushOp : SinkOp

/-- `langgraph.Config` with the defaults installed by `NewHook`. -/
structure Config where
  autoFlush : Bool := true
  defaultMetadata : GoMap := []
  traceName : String := "langgraph_workflow"
  sessionID : String := ""
  userID : String := ""
  tags : List String := ["golang", "langgraph"]

/-- `langgraph.Hook`: the id-translation tables, configuration, the
fresh-uuid counter and the ghost Sink log. -/
structure HookState where
  enabled : Bool
  traces : List (String × ModelTrace) := []
  observations : List (String × String) := []
  parents : List (String × String) := []
  initialInput : GoVal := GoVal.null
  config : Config := {}
  sink : List SinkOp := []
  nextUuid : Nat := 0

/-- A hook as built by `NewHookWithClient` with default options: enabled,
empty tables. -/
def mkHook : HookState := { enabled := true }

/-- `extractModel` from hook.go. -/
def extractModel (span : TraceSpan) : String :=
  match alookup "model" span.metadata with
  | some (GoVal.str m) => m
  | _ =>
    if containsIgnoreCase span.nodeName "gpt" then "gpt-3.5-turbo"
    else if containsIgnoreCase span.nodeName "claude" then "claude-3-sonnet"
    else if containsIgnoreCase span.nodeName "gemini" then "gemini-pro"
    else "unknown"

/-- `extractModelParams` from hook.go (defaults `temperature = 0.7`,
`max_tokens = 2048`, overridable from the event metadata). -/
def extractModelParams (span : TraceSpan) : GoMap :=
  let params := aset "max_tokens" (GoVal.int 2048)
    (aset "temperature" (GoVal.flt (7 / 10)) [])
  let params := match alookup "temperature" span.metadata with
    | some t => aset "temperature" t params
    | none => params
  match alookup "max_tokens" span.metadata with
  | some t => aset "max_tokens" t params
  | none => params

/-- `extractUsage` from hook.go: token usage from `metadata["usage"]`
when present (non-int entries default to 0), otherwise the fixed
placeholder estimate 100/200/300. -/
def extractUsage (span : TraceSpan) : Usage :=
  match alookup "usage" span.metadata with
  | some (GoVal.map usage) =>
    let input := match alookup "input" usage with
      | some (GoVal.int i) => i
      | _ => 0
    let output := match alookup "output" usage with
      | some (GoVal.int o) => o
      | _ => 0
    { input := input, output := output, total := input + output }
  | _ => { input := 100, output := 200, total := 300 }

set_option maxHeartbeats 1000000 in
/-- `handleGraphStart` from hook.go: allocate a trace id, merge metadata
(defaults, then event metadata, then derived fields), resolve
userId/sessionId, emit the trace create, create the synthetic root span
and register the id mappings. The two Sink calls are modelled as always
succeeding (see `SinkOp`); the echoed root span id equals the one sent,
so the `createdRootSpan.ID != ""` branch keeps `rootSpanID` unchanged. -/
def handleGraphStart (h : HookState) (span : TraceSpan) : HookState :=
  let traceID := uuidStr h.nextUuid
  let h := { h with nextUuid := h.nextUuid + 1 }
  let now := span.startTime
  let metadata : GoMap :=
    h.config.defaultMetadata.foldl (fun m kv => aset kv.1 kv.2 m) []
  let metadata := span.metadata.foldl (fun m kv => aset kv.1 kv.2 m) metadata
  let metadata := aset "graph_span_id" (GoVal.str span.id) metadata
  let metadata := aset "sdk" (GoVal.str "langfuse-go/langgraph") metadata
  let metadata := aset "sdk_version" (GoVal.str "1.0.0") metadata
  let userID := h.config.userID
  let sessionID := h.config.sessionID
  let sessionID := if sessionID = "" then "graph_" ++ traceID else sessionID
  let userID := match alookup "user_id" metadata with
    | some (GoVal.str uid) => if userID = "" then uid else userID
    | _ => userID
  let sessionID := match alookup "session_id" metadata with
    | some (GoVal.str sid) => if sessionID = "" then sid else sessionID
    | _ => sessionID
  let trace : ModelTrace :=
    { id := traceID, timestamp := some now, name := h.config.traceName,
      userID := userID, sessionID := sessionID, input := h.initialInput,
      metadata := metadata, tags := h.config.tags }
  let h := { h with sink := h.sink ++ [SinkOp.traceOp trace] }
  let h := { h with traces := aset span.id trace h.traces }
  let rootSpanID := uuidStr h.nextUuid
  let h := { h with nextUuid := h.nextUuid + 1 }
  let rootSpan : ModelSpan :=
    { id := rootSpanID, traceID := traceID, name := h.config.traceName,
      startTime := some now, input := h.initialInput,
      metadata :=
        [("graph_span_id", GoVal.str span.id),
         ("sdk", GoVal.str "langfuse-go/langgraph"),
         ("sdk_version", GoVal.str "1.0.0")] }
  let h := { h with sink := h.sink ++ [SinkOp.spanOp rootSpan none] }
  let h := { h with observations := aset "langgraph_wrapper" rootSpanID h.observations }
  let h := { h with observations := aset "default_parent" rootSpanID h.observations }
  let h := { h with observations := aset span.id rootSpanID h.observations }
  { h with parents := aset rootSpanID "" h.parents }

/-- `handleGraphEnd` from hook.go: a missing trace mapping is a no-op;
otherwise merge duration/status/error into the stored trace's metadata
(the Go code mutates the map through the stored pointer, modelled by
writing the updated trace back), emit a trace update and a root-span
update, and auto-flush if configured. The stored metadata is always a
map in this model, so the Go type assertion always succeeds. -/
def handleGraphEnd (h : HookState) (span : TraceSpan) : HookState :=
  match alookup span.id h.traces with
  | none => h
  | some trace =>
    let endTime := span.endTime
    let metadata := aset "duration_ms" (GoVal.int span.duration) trace.metadata
    let metadata := aset "status" (GoVal.str "completed") metadata
    let metadata := match span.error with
      | some e => aset "status" (GoVal.str "error") (aset "error" (GoVal.str e) metadata)
      | none => metadata
    let trace := { trace with metadata := metadata }
    let h := { h with traces := aset span.id trace h.traces }
    let h := { h with sink := h.sink ++
      [SinkOp.traceOp { id := trace.id, timestamp := some endTime,
                        output := span.state, metadata := trace.metadata }] }
    let h := match alookup span.id h.observations with
      | some rootSpanID =>
        { h with sink := h.sink ++
          [SinkOp.spanOp { id := rootSpanID, traceID := trace.id,
                           name := h.config.traceName, endTime := some endTime,
                           output := span.state } none] }
      | none => h
    if h.config.autoFlush then { h with sink := h.sink ++ [SinkOp.flushOp] } else h

/-- `handleNodeStart` from hook.go: resolve the owning trace via the
declared parent id, falling back to an arbitrarily chosen open trace
(the first entry of the table models Go's map iteration pick) when no
parent is declared; classify the node name; emit a generation or span
create under the `default_parent` observation; record the
external-id→record-id and record-id→parent-id mappings. -/
def handleNodeStart (h : HookState) (span : TraceSpan) : HookState :=
  let traceID :=
    if span.parentID ≠ "" then
      match alookup span.parentID h.traces with
      | some parentTrace => parentTrace.id
      | none => ""
    else
      match h.traces with
      | [] => ""
      | (_, currentTrace) :: _ => currentTrace.id
  if traceID = "" then h
  else
    let spanID := uuidStr h.nextUuid
    let h := { h with nextUuid := h.nextUuid + 1 }
    let startTime := span.startTime
    let isAINode := isAIOperation span.nodeName
    let parentObsID : Option String := alookup "default_parent" h.observations
    if isAINode then
      let generation : ModelGeneration :=
        { id := spanID, traceID := traceID,
          name := span.nodeName ++ "_generation",
          startTime := some startTime, model := extractModel span,
          input := span.state,
          metadata := [("node_name", GoVal.str span.nodeName),
                       ("graph_span_id", GoVal.str span.id)],
          modelParameters := extractModelParams span }
      let h := { h with sink := h.sink ++ [SinkOp.generationOp generation parentObsID] }
      let h := match parentObsID with
        | some p => { h with parents := aset spanID p h.parents }
        | none => h
      { h with observations := aset span.id spanID h.observations }
    else
      let langfuseSpan : ModelSpan :=
        { id := spanID, traceID := traceID, name := span.nodeName,
          startTime := some startTime, input := span.state,
          metadata := [("node_name", GoVal.str span.nodeName),
                       ("graph_span_id", GoVal.str span.id)] }
      let h := { h with sink := h.sink ++ [SinkOp.spanOp langfuseSpan parentObsID] }
      let h := match parentObsID with
        | some p => { h with parents := aset spanID p h.parents }
        | none => h
      { h with observations := aset span.id spanID h.observations }

/-- `handleNodeEnd` from hook.go (also handles `NodeError`): a missing
observation mapping is a no-op; the owning trace is resolved only via
the declared parent id (no fallback), so an empty or unknown parent is
also a no-op; otherwise emit the generation/span update with
duration/status/error metadata and the previously recorded parent. -/
def handleNodeEnd (h : HookState) (span : TraceSpan) : HookState :=
  match alookup span.id h.observations with
  | none => h
  | some obsID =>
    let traceID :=
      if span.parentID ≠ "" then
        match alookup span.parentID h.traces with
        | some parentTrace => parentTrace.id
        | none => ""
      else ""
    if traceID = "" then h
    else
      let endTime := span.endTime
      let metadata : GoMap :=
        [("duration_ms", GoVal.int span.duration),
         ("node_name", GoVal.str span.nodeName)]
      let metadata := match span.error with
        | some e => aset "status" (GoVal.str "error") (aset "error" (GoVal.str e) metadata)
        | none => aset "status" (GoVal.str "completed") metadata
      let isAINode := isAIOperation span.nodeName
      let parentObsID : Option String :=
        match alookup obsID h.parents with
        | some parentID => if parentID ≠ "" then some parentID else none
        | none => none
      if isAINode then
        { h with sink := h.sink ++
          [SinkOp.generationOp
            { id := obsID, traceID := traceID,
              name := span.nodeName ++ "_generation",
              endTime := some endTime, output := span.state,
              metadata := metadata, usage := extractUsage span } parentObsID] }
      else
        { h with sink := h.sink ++
          [SinkOp.spanOp
            { id := obsID, traceID := traceID, name := span.nodeName,
              endTime := some endTime, output := span.state,
              metadata := metadata } parentObsID] }

/-- `OnEvent` from hook.go: disabled hooks ignore everything; edge
traversals are skipped; the remaining events dispatch to their
handlers. -/
def onEvent (h : HookState) (span : TraceSpan) : HookState :=
  if !h.enabled then h
  else
    match span.event with
    | TraceEvent.graphStart => handleGraphStart h span
    | TraceEvent.graphEnd => handleGraphEnd h span
    | TraceEvent.nodeStart => handleNodeStart h span
    | TraceEvent.nodeEnd => handleNodeEnd h span
    | TraceEvent.nodeError => handleNodeEnd h span
    | TraceEvent.edgeTraversal => h

/-! ## Concrete scenario inputs and Sink-log extraction helpers. -/

/-- The `GraphStart(id=g1)` event of the end-to-end scenario. -/
def e1 : TraceSpan := { id := "g1", event := TraceEvent.graphStart }

/-- The `NodeStart(id=n1, parent=g1, name="gpt_summarize")` event. -/
def e2 : TraceSpan :=
  { id := "n1", parentID := "g1", event := TraceEvent.nodeStart,
    nodeName := "gpt_summarize" }

/-- The `NodeEnd(id=n1)` event (its parent pointer names the graph run,
as delivered by the event source). -/
def e3 : TraceSpan :=
  { id := "n1", parentID := "g1", event := TraceEvent.nodeEnd,
    nodeName := "gpt_summarize" }

/-- The `GraphEnd(id=g1)` event. -/
def e4 : TraceSpan := { id := "g1", event := TraceEvent.graphEnd }

/-- The hook state after processing the end-to-end scenario in order on
a freshly constructed enabled hook. -/
def c1Run : HookState := onEvent (onEvent (onEvent (onEvent mkHook e1) e2) e3) e4

/-- The hook state after `GraphStart(g1)` and `NodeStart(n1)`: the point
at which `n1` already has an observation mapping. -/
def c8State : HookState := onEvent (onEvent mkHook e1) e2

/-- A second `NodeStart` for the already-started external id `n1`. -/
def c8Dup : TraceSpan :=
  { id := "n1", parentID := "g1", event := TraceEvent.nodeStart,
    nodeName := "analyze_step" }

/-- A `GraphStart` whose event metadata carries a `session_id`, on a
hook with no configured session id. -/
def c7Event : TraceSpan :=
  { id := "g1", event := TraceEvent.graphStart,
    metadata := [("session_id", GoVal.str "sess-42")] }

/-- The trace id carried by a Sink call, when it is a trace operation. -/
def SinkOp.traceId? : SinkOp → Option String
  | SinkOp.traceOp t => some t.id
  | _ => none

/-- The span id carried by a Sink call, when it is a span operation with
no parent observation (the synthetic root observations). -/
def SinkOp.rootSpanId? : SinkOp → Option String
  | SinkOp.spanOp s none => some s.id
  | _ => none

/-- The generation id carried by a Sink call, when it is a generation
operation. -/
def SinkOp.genId? : SinkOp → Option String
  | SinkOp.generationOp g _ => some g.id
  | _ => none

/-- The first generation operation of a Sink log (the create for that
generation, since creates precede updates). -/
def firstGenOp : List SinkOp → Option (ModelGeneration × Option String)
  | [] => none
  | SinkOp.generationOp g p :: _ => some (g, p)
  | _ :: rest => firstGenOp rest

/-- The first trace operation of a Sink log (the trace create). -/
def firstTraceOp : List SinkOp → Option ModelTrace
  | [] => none
  | SinkOp.traceOp t :: _ => some t
  | _ :: rest => firstTraceOp rest

/-- Deduplicate a list of ids, keeping first occurrences. -/
def dedupS : List String → List String
  | [] => []
  | s :: t => s :: (dedupS t).filter (fun x => x ≠ s)

/-! ## Media deduplication and upload pipeline (media.go: `MediaContent`,
`MediaUploader`, `Upload`, `UploadWithCallback`, `worker`/`processUpload`,
`GetStatus`, `WaitForUpload`, `Shutdown`). -/

/-- `MediaContent` as the upload pipeline consumes it. In Go, `Hash` is
the sha256 hex digest of `Data`, so byte-identical payloads have equal
hashes; the pipeline reads only `ID` and `Hash`, so content identity is
represented here directly by the `hash` field and the construction
helpers (which just compute the digest and a data URI) are not
re-modelled. -/
structure MediaContent where
  id : String
  hash : String
  contentType : String := ""
  fileName : String := ""
deriving DecidableEq

/-- `MediaUploadTask`. The Go callback function is opaque to the queue;
only its presence is tracked. -/
structure MediaUploadTask where
  media : MediaContent
  traceID : String := ""
  spanID : String := ""
  hasCallback : Bool := false
deriving DecidableEq

/-- `MediaUploadStatus` (`error` is never set by this code: there is no
failure path in `processUpload`). -/
structure MediaUploadStatus where
  id : String
  status : String
  referenceID : String := ""
  error : Option String := none
  startedAt : Nat := 0
  completedAt : Option Nat := none
deriving DecidableEq

/-- `MediaUploader`: the bounded queue (a channel of capacity 100), the
status table, the dedup cache, the fresh-uuid counter, a logical clock,
a ghost counter of performed (simulated network) uploads, and the
closed flag set by `Shutdown`. -/
structure MediaUploader where
  queue : List MediaUploadTask := []
  queueCap : Nat := 100
  workers : Nat := 2
  uploads : List (String × MediaUploadStatus) := []
  dedupCache : List (String × String) := []
  nextUuid : Nat := 0
  clock : Nat := 0
  networkUploads : Nat := 0
  closed : Bool := false
deriving DecidableEq

/-- `NewMediaUploader`: queue capacity 100, worker count defaulted to 2
when non-positive. -/
def newMediaUploader (workers : Int) : MediaUploader :=
  { queueCap := 100,
    workers := if workers ≤ 0 then 2 else workers.toNat }

/-- `Upload` from media.go: fast path returns the cached reference id
for an already-seen content hash with no state change; the slow path
registers a "queued" status entry and then attempts a non-blocking
enqueue (`select`/`default`), returning the media id on success and the
saturation error when the channel buffer is full. -/
def upload (mu : MediaUploader) (media : MediaContent) (traceID spanID : String) :
    Except String String × MediaUploader :=
  match alookup media.hash mu.dedupCache with
  | some refID => (Except.ok refID, mu)
  | none =>
    let status : MediaUploadStatus :=
      { id := media.id, status := "queued", startedAt := mu.clock }
    let mu := { mu with uploads := aset media.id status mu.uploads }
    let task : MediaUploadTask :=
      { media := media, traceID := traceID, spanID := spanID }
    if mu.queue.length < mu.queueCap then
      (Except.ok media.id, { mu with queue := mu.queue ++ [task] })
    else
      (Except.error "upload queue is full", mu)

/-- `UploadWithCallback` from media.go: constructs the task (with the
callback marker) and enqueues with blocking back-pressure; the blocking
send is modelled partially, `none` standing for the caller being
suspended while the queue is full. -/
def uploadWithCallback (mu : MediaUploader) (media : MediaContent)
    (traceID spanID : String) : Option MediaUploader :=
  if mu.queue.length < mu.queueCap then
    some { mu with queue := mu.queue ++
      [{ media := media, traceID := traceID, spanID := spanID, hasCallback := true }] }
  else none

/-- `processUpload` from media.go: mark the status entry (if any)
"uploading", perform the upload (the network call, counted by the ghost
field; the reference id comes back from the media endpoint, a fresh
`media_<uuid>` here as in the simulated call), commit hash→reference
into the dedup cache, mark the status entry "completed", and invoke the
callback if present (an external effect, not recorded). -/
def processUpload (mu : MediaUploader) (task : MediaUploadTask) : MediaUploader :=
  let markUploading := fun (st : MediaUploadStatus) => { st with status := "uploading" }
  let mu := { mu with uploads := aupdate task.media.id markUploading mu.uploads }
  let referenceID := "media_" ++ uuidStr mu.nextUuid
  let mu := { mu with nextUuid := mu.nextUuid + 1,
                      networkUploads := mu.networkUploads + 1 }
  let mu := { mu with dedupCache := aset task.media.hash referenceID mu.dedupCache }
  let markCompleted := fun (st : MediaUploadStatus) =>
    { st with status := "completed", referenceID := referenceID,
              completedAt := some mu.clock }
  { mu with uploads := aupdate task.media.id markCompleted mu.uploads }

/-- One step of the `worker` loop: receive the next task from the queue
and process it (a no-op when the queue is empty). -/
def workerStep (mu : MediaUploader) : MediaUploader :=
  match mu.queue with
  | [] => mu
  | task :: rest => processUpload { mu with queue := rest } task

/-- The drain performed by the workers between `close(mu.queue)` and
`mu.wg.Wait()`: every task still in the channel buffer is received and
processed, in order. -/
def drainQueue (tasks : List MediaUploadTask) (mu : MediaUploader) : MediaUploader :=
  match tasks with
  | [] => mu
  | task :: rest => drainQueue rest (processUpload mu task)

/-- `Shutdown` from media.go: close the queue (no further enqueues) and
wait for the workers, which drain every buffered task to a terminal
state before exiting. -/
def shutdown (mu : MediaUploader) : MediaUploader :=
  drainQueue mu.queue { mu with queue := [], closed := true }

/-- `GetStatus` from media.go (a missing entry is the nil pointer). -/
def getStatus (mu : MediaUploader) (mediaID : String) : Option MediaUploadStatus :=
  alookup mediaID mu.uploads

/-- One iteration of the `WaitForUpload` polling loop, up to the
deadline test: a missing status entry fails with "upload not found", a
terminal status resolves the wait, and `none` means the loop goes on to
the deadline test and the sleep. The status table is read through
`getStatus`; with no concurrently running worker the snapshot is the
same at every poll. -/
def waitPoll (mu : MediaUploader) (mediaID : String) : Option (Except String String) :=
  match getStatus mu mediaID with
  | none => some (Except.error ("upload not found: " ++ mediaID))
  | some st =>
    if st.status = "completed" then some (Except.ok st.referenceID)
    else if st.status = "failed" then some (Except.error (st.error.getD ""))
    else none

/-- The polling loop of `WaitForUpload`. The deadline is modelled as the
number of 100ms poll intervals remaining before `time.Now()` passes it;
the second component of the result counts the `time.Sleep` calls
executed. -/
def waitLoop (mu : MediaUploader) (mediaID : String) :
    Nat → Nat → Except String String × Nat
  | sleeps, 0 =>
    match waitPoll mu mediaID with
    | some r => (r, sleeps)
    | none => (Except.error "upload timeout", sleeps)
  | sleeps, remaining + 1 =>
    match waitPoll mu mediaID with
    | some r => (r, sleeps)
    | none => waitLoop mu mediaID (sleeps + 1) remaining

/-- `WaitForUpload` from media.go, with the timeout expressed in poll
intervals. -/
def waitForUpload (mu : MediaUploader) (mediaID : String) (timeoutPolls : Nat) :
    Except String String × Nat :=
  waitLoop mu mediaID 0 timeoutPolls

/-- `Except.ok`-ness of one `Upload` result. -/
def isOkB : Except String String → Bool
  | Except.ok _ => true
  | Except.error _ => false

instance : DecidableEq (Except String String) :=
  fun a b =>
    match a, b with
    | Except.ok x, Except.ok y =>
      if h : x = y then Decidable.isTrue (by rw [h])
      else Decidable.isFalse (by simp [h])
    | Except.error x, Except.error y =>
      if h : x = y then Decidable.isTrue (by rw [h])
      else Decidable.isFalse (by simp [h])
    | Except.ok _, Except.error _ => Decidable.isFalse (by simp)
    | Except.error _, Except.ok _ => Decidable.isFalse (by simp)

/-- `Upload` iterated over a batch of contents (each call issued after
the previous returned; no worker runs in between). -/
def uploadMany (mu : MediaUploader) (ms : List MediaContent) (traceID spanID : String) :
    List (Except String String) × MediaUploader :=
  match ms with
  | [] => ([], mu)
  | m :: rest =>
    let r := upload mu m traceID spanID
    let rr := uploadMany r.2 rest traceID spanID
    (r.1 :: rr.1, rr.2)

/-! ### Concrete pipeline scenarios. -/

/-- First content of the dedup scenario (ids as `uuid.New()` would
produce, hashes equal because the bytes are identical). -/
def c2MediaA : MediaContent := { id := "4d3c2b1a-0001", hash := "deadbeef" }

/-- Second, byte-identical content: same hash, its own fresh id. -/
def c2MediaB : MediaContent := { id := "4d3c2b1a-0002", hash := "deadbeef" }

/-- First sequential upload of the dedup scenario. -/
def c2Run1 : Except String String × MediaUploader :=
  upload (newMediaUploader 2) c2MediaA "t1" "s1"

/-- Second sequential upload, after a worker finished the first task. -/
def c2Run2 : Except String String × MediaUploader :=
  upload (workerStep c2Run1.2) c2MediaB "t1" "s1"

/-- The i-th distinct content of the saturation scenario. -/
def mkMediaN (i : Nat) : MediaContent :=
  { id := "m" ++ toString i, hash := "h" ++ toString i }

/-- 101 non-blocking uploads of distinct contents on a fresh uploader
whose workers never got scheduled: the first 100 fill the queue, the
101st is rejected with the saturation error but its status entry stays
in the table. -/
def c6Sat : MediaUploader :=
  (List.range 101).foldl (fun mu i => (upload mu (mkMediaN i) "t" "s").2)
    (newMediaUploader 2)

/-- The saturated uploader after `Shutdown` drained the queue. -/
def c6Final : MediaUploader := shutdown c6Sat

/-- A fresh uploader holding exactly one queued upload. -/
def c6W : MediaUploader := (upload (newMediaUploader 2) (mkMediaN 0) "t" "s").2

/-! # Theorems -/
/-! ### Bridging lemmas: the Go scanning loop computes the substring
relation. -/

theorem isPrefixL_iff (sub s : List Char) :
    isPrefixL sub s = true ↔ ∃ post, s = sub ++ post := by
  induction sub generalizing s with
  | nil => simp [isPrefixL]
  | cons a as ih =>
    cases s with
    | nil =>
      simp [isPrefixL]
    | cons b bs =>
      simp only [isPrefixL, Bool.and_eq_true, beq_iff_eq, ih, List.cons_append,
        List.cons.injEq]
      constructor
      · rintro ⟨hab, post, hpost⟩
        exact ⟨post, hab.symm, hpost⟩
      · rintro ⟨post, hab, hpost⟩
        exact ⟨hab.symm, post, hpost⟩

theorem indexOfL_nonneg_iff (s sub : List Char) :
    0 ≤ indexOfL s sub ↔ SubstrOf sub s := by
  induction s with
  | nil =>
    by_cases hp : isPrefixL sub [] = true
    · rcases (isPrefixL_iff sub []).mp hp with ⟨post, hpost⟩
      rcases List.append_eq_nil.mp hpost.symm with ⟨hsub, hp2⟩
      subst hsub
      simp [indexOfL, hp, SubstrOf]
    · simp only [indexOfL, if_neg hp, SubstrOf]
      constructor
      · intro h; omega
      · rintro ⟨pre, post, hs⟩
        exfalso
        rcases List.append_eq_nil.mp hs.symm with ⟨h1, h2⟩
        rcases List.append_eq_nil.mp h1 with ⟨h3, h4⟩
        subst h4
        exact hp ((isPrefixL_iff [] []).mpr ⟨[], rfl⟩)
  | cons a t ih =>
    by_cases hp : isPrefixL sub (a :: t) = true
    · rcases (isPrefixL_iff sub (a :: t)).mp hp with ⟨post, hpost⟩
      simp only [indexOfL, if_pos hp]
      constructor
      · intro _; exact ⟨[], post, by simpa using hpost⟩
      · intro _; omega
    · simp only [indexOfL, if_neg hp]
      constructor
      · intro h
        by_cases hr : indexOfL t sub < 0
        · simp only [if_pos hr] at h; omega
        · simp only [if_neg hr] at h
          rcases ih.mp (by omega) with ⟨pre, post, hs⟩
          exact ⟨a :: pre, post, by simp [hs]⟩
      · rintro ⟨pre, post, hs⟩
        cases pre with
        | nil =>
          exfalso
          exact hp ((isPrefixL_iff sub (a :: t)).mpr ⟨post, by simpa using hs⟩)
        | cons x xs =>
          simp only [List.cons_append, List.cons.injEq] at hs
          have : 0 ≤ indexOfL t sub := ih.mpr ⟨xs, post, hs.2⟩
          have hr : ¬ indexOfL t sub < 0 := by omega
          simp only [if_neg hr]
          omega

theorem containsStringL_iff (s sub : List Char) :
    containsStringL s sub = true ↔ SubstrOf sub s := by
  unfold containsStringL
  simp only [Bool.and_eq_true, decide_eq_true_eq]
  constructor
  · rintro ⟨_, h⟩; exact (indexOfL_nonneg_iff s sub).mp h
  · intro h
    refine ⟨?_, (indexOfL_nonneg_iff s sub).mpr h⟩
    rcases h with ⟨pre, post, hs⟩
    subst hs
    simp
    omega

theorem lowerL_length (l : List Char) : (lowerL l).length = l.length := by
  simp [lowerL]

theorem containsIgnoreCase_iff (s sub : String) :
    containsIgnoreCase s sub = true ↔ CIContains s sub := by
  unfold containsIgnoreCase CIContains
  simp only [Bool.and_eq_true, Bool.or_eq_true, decide_eq_true_eq, beq_iff_eq]
  constructor
  · rintro ⟨_, h | h⟩
    · subst h; exact ⟨[], [], by simp⟩
    · exact (containsStringL_iff _ _).mp h
  · intro h
    have hlen : sub.length ≤ s.length := by
      rcases h with ⟨pre, post, hs⟩
      have hl := congrArg List.length hs
      rw [List.length_append, List.length_append, lowerL_length, lowerL_length]
        at hl
      show sub.data.length ≤ s.data.length
      omega
    exact ⟨hlen, Or.inr ((containsStringL_iff _ _).mpr h)⟩

/-! ### Association-list lemmas (Go map semantics). -/

theorem alookup_aset_self {α : Type} (k : String) (v : α) (l : List (String × α)) :
    alookup k (aset k v l) = some v := by
  induction l with
  | nil => simp [aset, alookup]
  | cons kv t ih =>
    obtain ⟨a, b⟩ := kv
    by_cases h : k = a
    · subst h; simp [aset, alookup]
    · simp [aset, alookup, h, ih]

theorem alookup_aset_ne {α : Type} (k k' : String) (v : α) (l : List (String × α))
    (h : k ≠ k') : alookup k (aset k' v l) = alookup k l := by
  induction l with
  | nil => simp [aset, alookup, h]
  | cons kv t ih =>
    obtain ⟨a, b⟩ := kv
    by_cases h2 : k' = a
    · subst h2; simp [aset, alookup, h]
    · by_cases h3 : k = a
      · subst h3; simp [aset, alookup, h2, fun hh => h2 hh]
      · simp [aset, alookup, h2, h3, ih]

theorem alookup_aupdate_self {α : Type} (k : String) (f : α → α) (l : List (String × α)) :
    alookup k (aupdate k f l) = (alookup k l).map f := by
  induction l with
  | nil => simp [aupdate, alookup]
  | cons kv t ih =>
    obtain ⟨a, b⟩ := kv
    by_cases h : k = a
    · subst h; simp [aupdate, alookup]
    · simp [aupdate, alookup, h, ih]

theorem alookup_aupdate_ne {α : Type} (k k' : String) (f : α → α) (l : List (String × α))
    (h : k ≠ k') : alookup k (aupdate k' f l) = alookup k l := by
  induction l with
  | nil => simp [aupdate]
  | cons kv t ih =>
    obtain ⟨a, b⟩ := kv
    by_cases h2 : k' = a
    · subst h2; simp [aupdate, alookup, h]
    · by_cases h3 : k = a
      · subst h3; simp [aupdate, alookup, h2]
      · simp [aupdate, alookup, h2, h3, ih]

theorem alookup_mem {α : Type} {k : String} {v : α} {l : List (String × α)}
    (h : alookup k l = some v) : (k, v) ∈ l := by
  induction l with
  | nil => simp [alookup] at h
  | cons kv t ih =>
    obtain ⟨a, b⟩ := kv
    by_cases h2 : k = a
    · subst h2
      simp [alookup] at h
      subst h
      exact List.mem_cons_self _ _
    · simp [alookup, h2] at h
      exact List.mem_cons_of_mem _ (ih h)

/-! ## Claim theorems: the hook. -/

/-- C3: the classifier decides Span vs. Generation by case-insensitive
substring match of the node name against the fixed vocabulary
{ai, llm, generate, completion, chat, gpt, claude, gemini, openai} — a
plain substring occurrence with no word-boundary checking — and the
listed example node names classify as stated ("generate_response",
"ai_completion", "llm_call", "gpt_x", "claude_x", "gemini_x",
"openai_x" are Generations; "process_data", "validate_input" are
Spans). -/
theorem classifier_substring_vocabulary :
    (∀ n : String, isAIOperation n = true ↔ ∃ p ∈ aiPatterns, CIContains n p) ∧
    isAIOperation "generate_response" = true ∧
    isAIOperation "ai_completion" = true ∧
    isAIOperation "llm_call" = true ∧
    isAIOperation "gpt_x" = true ∧
    isAIOperation "claude_x" = true ∧
    isAIOperation "gemini_x" = true ∧
    isAIOperation "openai_x" = true ∧
    isAIOperation "process_data" = false ∧
    isAIOperation "validate_input" = false := by
  refine ⟨?_, by decide, by decide, by decide, by decide, by decide,
    by decide, by decide, by decide, by decide⟩
  intro n
  unfold isAIOperation
  rw [List.any_eq_true]
  constructor
  · rintro ⟨p, hp, hc⟩
    exact ⟨p, hp, (containsIgnoreCase_iff n p).mp hc⟩
  · rintro ⟨p, hp, hc⟩
    exact ⟨p, hp, (containsIgnoreCase_iff n p).mpr hc⟩

/-- Witness for C3: the characterisation applied at a concrete mixed-case
name — "Chat_Bot" matches the vocabulary word "chat" purely as a
case-insensitive substring. -/
theorem classifier_substring_vocabulary_witness :
    isAIOperation "Chat_Bot" = true :=
  (classifier_substring_vocabulary.1 "Chat_Bot").mpr
    ⟨"chat", by decide, ⟨[], "_bot".data, by decide⟩⟩

/-- C4: a NodeEnd, NodeError or GraphEnd event whose external id has no
recorded prior Start mapping (no entry in the observation table and no
entry in the trace table) is a complete no-op: the hook state —
including the id-translation tables and the ghost Sink log — is
unchanged, and no error is raised (the handlers are total). -/
theorem end_without_start_noop (h : HookState) (span : TraceSpan)
    (hev : span.event = TraceEvent.nodeEnd ∨ span.event = TraceEvent.nodeError ∨
           span.event = TraceEvent.graphEnd)
    (hobs : alookup span.id h.observations = none)
    (htr : alookup span.id h.traces = none) :
    onEvent h span = h := by
  unfold onEvent
  by_cases he : h.enabled
  · rcases hev with hev | hev | hev <;>
      rw [hev] <;> simp [he, handleNodeEnd, handleGraphEnd, hobs, htr]
  · simp [he]

/-- Witness for C4: a NodeEnd for an id never seen on a fresh hook. -/
theorem end_without_start_noop_witness :
    alookup "nx" mkHook.observations = none ∧
    alookup "nx" mkHook.traces = none ∧
    onEvent mkHook { id := "nx", event := TraceEvent.nodeEnd } = mkHook :=
  ⟨rfl, rfl,
    end_without_start_noop mkHook { id := "nx", event := TraceEvent.nodeEnd }
      (Or.inl rfl) rfl rfl⟩

/-- C10: a NodeEnd or NodeError event whose declared parent id is empty
never emits an update and never changes the hook state — even when the
event's external id has a recorded observation mapping, because trace
resolution in `handleNodeEnd` uses only the declared parent and, unlike
`handleNodeStart`, has no fallback to an arbitrarily chosen open
trace. -/
theorem nodeend_empty_parent_noop (h : HookState) (span : TraceSpan)
    (hev : span.event = TraceEvent.nodeEnd ∨ span.event = TraceEvent.nodeError)
    (hpar : span.parentID = "") :
    onEvent h span = h := by
  unfold onEvent
  by_cases he : h.enabled
  · rcases hev with hev | hev <;> rw [hev] <;>
      · simp only [he, Bool.not_true, Bool.false_eq_true, if_false]
        unfold handleNodeEnd
        cases hobs : alookup span.id h.observations with
        | none => rfl
        | some obsID => simp [hpar]
  · simp [he]

/-- Witness for C10: a NodeEnd with an empty parent id on a state where
the external id `n1` does have an observation mapping. -/
theorem nodeend_empty_parent_noop_witness :
    (alookup "n1" c8State.observations).isSome = true ∧
    onEvent c8State
      { id := "n1", event := TraceEvent.nodeEnd, nodeName := "gpt_summarize" } =
      c8State :=
  ⟨by decide,
    nodeend_empty_parent_noop c8State
      { id := "n1", event := TraceEvent.nodeEnd, nodeName := "gpt_summarize" }
      (Or.inl rfl) rfl⟩

/-- C7, evaluated at the failing input: on a hook with no configured
session id, a GraphStart whose metadata carries
`session_id = "sess-42"` emits a Trace whose session id is the
synthesized default `graph_<traceId>`, not the metadata value — the
code installs the synthesized default before consulting the metadata,
so the `sessionID == ""` guard in front of the metadata lookup can
never fire. (The user-id conjunct shows the metadata fallback working
for `user_id`, the order the claim describes.) -/
theorem graphstart_session_metadata_dead :
    (firstTraceOp (onEvent mkHook c7Event).sink).map (fun t => t.sessionID) =
      some ("graph_" ++ uuidStr 0) ∧
    (firstTraceOp (onEvent mkHook c7Event).sink).map (fun t => t.sessionID) ≠
      some "sess-42" ∧
    (firstTraceOp (onEvent mkHook
        { id := "g1", event := TraceEvent.graphStart,
          metadata := [("user_id", GoVal.str "user-7")] }).sink).map
      (fun t => t.userID) = some "user-7" := by
  refine ⟨by decide, by decide, by decide⟩

/-- Counterexample to C8 as stated: on the state reached by
`GraphStart(g1); NodeStart(n1)`, a second NodeStart for the same
external id `n1` is not silently ignored — a new observation create is
emitted to the Sink (the log grows) and the external-id mapping is
overwritten with the new observation id. -/
theorem duplicate_nodestart_not_ignored :
    (onEvent c8State c8Dup).sink.length = c8State.sink.length + 1 ∧
    alookup "n1" c8State.observations = some (uuidStr 2) ∧
    alookup "n1" (onEvent c8State c8Dup).observations = some (uuidStr 3) ∧
    alookup "n1" (onEvent c8State c8Dup).observations ≠
      alookup "n1" c8State.observations := by
  refine ⟨by decide, by decide, by decide, by decide⟩

/-- C8 as amended: `handleNodeStart` performs no duplicate check. For
every NodeStart whose external id already has a recorded observation
mapping and whose owning trace resolves (declared parent found, with a
non-empty trace id), a fresh observation record is created and emitted
to the Sink, and the external-id→observation mapping is overwritten
with the fresh record id. -/
theorem duplicate_nodestart_overwrites (h : HookState) (span : TraceSpan)
    (he : h.enabled = true)
    (hev : span.event = TraceEvent.nodeStart)
    (hpar : span.parentID ≠ "")
    (hsome : (alookup span.parentID h.traces).isSome = true)
    (hid : (alookup span.parentID h.traces).map (fun t => t.id) ≠ some "")
    (hold : (alookup span.id h.observations).isSome = true) :
    alookup span.id (onEvent h span).observations = some (uuidStr h.nextUuid) ∧
    (onEvent h span).sink.length = h.sink.length + 1 := by
  cases ht : alookup span.parentID h.traces with
  | none => rw [ht] at hsome; simp at hsome
  | some parentTrace =>
    rw [ht] at hid
    have htid : parentTrace.id ≠ "" := fun hh => hid (by simp [hh])
    unfold onEvent
    rw [hev]
    simp only [he, Bool.not_true, Bool.false_eq_true, if_false]
    cases hdp : alookup "default_parent" h.observations <;>
      by_cases hai : isAIOperation span.nodeName <;>
        simp [handleNodeStart, hpar, ht, htid, hai, hdp, alookup_aset_self]

/-- Witness for C8's amended theorem: the duplicate NodeStart of the
concrete scenario. -/
theorem duplicate_nodestart_overwrites_witness :
    c8State.enabled = true ∧
    (alookup "g1" c8State.traces).isSome = true ∧
    (alookup "n1" c8State.observations).isSome = true ∧
    alookup "n1" (onEvent c8State c8Dup).observations =
      some (uuidStr c8State.nextUuid) :=
  ⟨by decide, by decide, by decide,
    (duplicate_nodestart_overwrites c8State c8Dup (by decide) rfl (by decide)
      (by decide) (by decide) (by decide)).1⟩

/-- C1: processing GraphStart(g1), NodeStart(n1, parent=g1,
name="gpt_summarize"), NodeEnd(n1), GraphEnd(g1) in order on an enabled
hook creates exactly one Trace and exactly one root (parentless)
Observation, and exactly one Generation Observation — named
"gpt_summarize_generation", with model "gpt-3.5-turbo", and parented
directly on the run's root Observation. (Creation counts are counts of
distinct record ids in the Sink log; the update operations emitted at
NodeEnd/GraphEnd reuse the created ids.) -/
theorem end_to_end_gpt_summarize :
    (dedupS (c1Run.sink.filterMap SinkOp.traceId?)).length = 1 ∧
    (dedupS (c1Run.sink.filterMap SinkOp.rootSpanId?)).length = 1 ∧
    (dedupS (c1Run.sink.filterMap SinkOp.genId?)).length = 1 ∧
    (c1Run.sink.filterMap SinkOp.rootSpanId?).head? = some (uuidStr 1) ∧
    (firstGenOp c1Run.sink).map (fun gp => (gp.1.name, gp.1.model, gp.2)) =
      some ("gpt_summarize_generation", "gpt-3.5-turbo", some (uuidStr 1)) := by
  refine ⟨by decide, by decide, by decide, by decide, by decide⟩

/-! ### Helper lemmas for the upload pipeline. -/

theorem upload_dedupCache_eq (mu : MediaUploader) (m : MediaContent) (tid sid : String) :
    (upload mu m tid sid).2.dedupCache = mu.dedupCache := by
  unfold upload
  cases h : alookup m.hash mu.dedupCache with
  | some r => rfl
  | none => by_cases hq : mu.queue.length < mu.queueCap <;> simp [hq]

theorem upload_queueCap_eq (mu : MediaUploader) (m : MediaContent) (tid sid : String) :
    (upload mu m tid sid).2.queueCap = mu.queueCap := by
  unfold upload
  cases h : alookup m.hash mu.dedupCache with
  | some r => rfl
  | none => by_cases hq : mu.queue.length < mu.queueCap <;> simp [hq]

theorem upload_queue_len_miss (mu : MediaUploader) (m : MediaContent) (tid sid : String)
    (hd : alookup m.hash mu.dedupCache = none) :
    (upload mu m tid sid).2.queue.length =
      if mu.queue.length < mu.queueCap then mu.queue.length + 1 else mu.queue.length := by
  unfold upload
  rw [hd]
  by_cases hq : mu.queue.length < mu.queueCap <;> simp [hq]

theorem upload_ok_miss (mu : MediaUploader) (m : MediaContent) (tid sid : String)
    (hd : alookup m.hash mu.dedupCache = none) :
    isOkB (upload mu m tid sid).1 = decide (mu.queue.length < mu.queueCap) := by
  unfold upload
  rw [hd]
  by_cases hq : mu.queue.length < mu.queueCap <;> simp [hq, isOkB]

theorem uploadMany_ok_pattern (ms : List MediaContent) (tid sid : String) :
    ∀ mu : MediaUploader, (∀ m ∈ ms, alookup m.hash mu.dedupCache = none) →
      (uploadMany mu ms tid sid).1.map isOkB =
        (List.range ms.length).map
          (fun i => decide (mu.queue.length + i < mu.queueCap)) := by
  induction ms with
  | nil => intro mu _; simp [uploadMany]
  | cons m rest ih =>
    intro mu hall
    have hm : alookup m.hash mu.dedupCache = none := hall m (List.mem_cons_self _ _)
    have hrest : ∀ m' ∈ rest, alookup m'.hash (upload mu m tid sid).2.dedupCache = none := by
      intro m' hm'
      rw [upload_dedupCache_eq]
      exact hall m' (List.mem_cons_of_mem _ hm')
    simp only [uploadMany, List.map_cons, List.length_cons,
      List.range_succ_eq_map, List.map_map]
    rw [upload_ok_miss mu m tid sid hm, ih _ hrest,
      upload_queueCap_eq, upload_queue_len_miss mu m tid sid hm]
    refine congrArg₂ _ (by simp) ?_
    apply List.map_congr_left
    intro i _
    by_cases hq : mu.queue.length < mu.queueCap
    · have harith : mu.queue.length + 1 + i = mu.queue.length + (i + 1) := by omega
      simp [Function.comp, if_pos hq, harith]
    · simp only [Function.comp, if_neg hq]
      have h1 : ¬ (mu.queue.length + i < mu.queueCap) := by omega
      have h2 : ¬ (mu.queue.length + (i + 1) < mu.queueCap) := by omega
      simp [h1, h2]

theorem processUpload_queue (mu : MediaUploader) (t : MediaUploadTask) :
    (processUpload mu t).queue = mu.queue := rfl

theorem processUpload_closed (mu : MediaUploader) (t : MediaUploadTask) :
    (processUpload mu t).closed = mu.closed := rfl

theorem drainQueue_queue (ts : List MediaUploadTask) :
    ∀ mu : MediaUploader, (drainQueue ts mu).queue = mu.queue := by
  induction ts with
  | nil => intro mu; rfl
  | cons t rest ih => intro mu; rw [drainQueue, ih, processUpload_queue]

theorem drainQueue_closed (ts : List MediaUploadTask) :
    ∀ mu : MediaUploader, (drainQueue ts mu).closed = mu.closed := by
  induction ts with
  | nil => intro mu; rfl
  | cons t rest ih => intro mu; rw [drainQueue, ih, processUpload_closed]

theorem processUpload_lookup_isSome (mu : MediaUploader) (t : MediaUploadTask) (k : String) :
    (alookup k (processUpload mu t).uploads).isSome = (alookup k mu.uploads).isSome := by
  by_cases h : k = t.media.id
  · subst h
    simp [processUpload, alookup_aupdate_self]
  · simp [processUpload, alookup_aupdate_ne _ _ _ _ h]

theorem processUpload_self_completed (mu : MediaUploader) (t : MediaUploadTask)
    (h : (alookup t.media.id mu.uploads).isSome = true) :
    ∃ st, alookup t.media.id (processUpload mu t).uploads = some st ∧
      st.status = "completed" := by
  obtain ⟨st, hst⟩ := Option.isSome_iff_exists.mp h
  simp [processUpload, alookup_aupdate_self, hst]

theorem processUpload_keeps_completed (mu : MediaUploader) (t : MediaUploadTask)
    (k : String) (st : MediaUploadStatus)
    (h : alookup k mu.uploads = some st) (hc : st.status = "completed") :
    ∃ st', alookup k (processUpload mu t).uploads = some st' ∧
      st'.status = "completed" := by
  by_cases hk : k = t.media.id
  · subst hk
    simp [processUpload, alookup_aupdate_self, h]
  · refine ⟨st, ?_, hc⟩
    simp [processUpload, alookup_aupdate_ne _ _ _ _ hk, h]

theorem drainQueue_keeps_completed (ts : List MediaUploadTask) :
    ∀ (mu : MediaUploader) (k : String) (st : MediaUploadStatus),
      alookup k mu.uploads = some st → st.status = "completed" →
      ∃ st', alookup k (drainQueue ts mu).uploads = some st' ∧
        st'.status = "completed" := by
  induction ts with
  | nil => intro mu k st h hc; exact ⟨st, h, hc⟩
  | cons t rest ih =>
    intro mu k st h hc
    obtain ⟨st', h', hc'⟩ := processUpload_keeps_completed mu t k st h hc
    exact ih (processUpload mu t) k st' h' hc'

theorem drainQueue_completes (ts : List MediaUploadTask) :
    ∀ (mu : MediaUploader) (t : MediaUploadTask), t ∈ ts →
      (alookup t.media.id mu.uploads).isSome = true →
      ∃ st, alookup t.media.id (drainQueue ts mu).uploads = some st ∧
        st.status = "completed" := by
  induction ts with
  | nil => intro mu t ht; simp at ht
  | cons u rest ih =>
    intro mu t ht hsome
    rcases List.mem_cons.mp ht with h | h
    · subst h
      obtain ⟨st, hst, hc⟩ := processUpload_self_completed mu t hsome
      exact drainQueue_keeps_completed rest (processUpload mu t) t.media.id st hst hc
    · have : (alookup t.media.id (processUpload mu u).uploads).isSome = true := by
        rw [processUpload_lookup_isSome]; exact hsome
      exact ih (processUpload mu u) t h this

/-! ## Claim theorems: the media upload pipeline. -/

/-- C5: a non-blocking Upload issued while the queue is at capacity and
the content hash is not cached returns the saturation error
synchronously (the call is a total function of the state — it never
blocks — and the queue is left unchanged, so nothing is silently
dropped into it); and for a batch of Upload calls, all with uncached
hashes, issued while no worker runs, exactly the calls beyond the
remaining queue capacity fail: the i-th call succeeds iff
`queue length + i < capacity`. -/
theorem upload_saturation_error :
    (∀ (mu : MediaUploader) (m : MediaContent) (tid sid : String),
      alookup m.hash mu.dedupCache = none →
      mu.queueCap ≤ mu.queue.length →
      (upload mu m tid sid).1 = Except.error "upload queue is full" ∧
      (upload mu m tid sid).2.queue = mu.queue) ∧
    (∀ (mu : MediaUploader) (ms : List MediaContent) (tid sid : String),
      (∀ m ∈ ms, alookup m.hash mu.dedupCache = none) →
      (uploadMany mu ms tid sid).1.map isOkB =
        (List.range ms.length).map
          (fun i => decide (mu.queue.length + i < mu.queueCap))) := by
  constructor
  · intro mu m tid sid hd hfull
    have hq : ¬ mu.queue.length < mu.queueCap := by omega
    unfold upload
    rw [hd]
    simp [hq]
  · intro mu ms tid sid hall
    exact uploadMany_ok_pattern ms tid sid mu hall

/-- Witness for C5: on a fresh uploader whose queue already holds 100
tasks (the channel capacity), an upload of uncached content is rejected
with the saturation error. -/
theorem upload_saturation_error_witness :
    alookup (mkMediaN 777).hash
        ({ newMediaUploader 2 with
           queue := List.replicate 100 { media := mkMediaN 0 } }).dedupCache = none ∧
    ({ newMediaUploader 2 with
       queue := List.replicate 100 { media := mkMediaN 0 } } :
        MediaUploader).queueCap ≤
      ({ newMediaUploader 2 with
         queue := List.replicate 100 { media := mkMediaN 0 } } :
          MediaUploader).queue.length ∧
    (upload { newMediaUploader 2 with
              queue := List.replicate 100 { media := mkMediaN 0 } }
      (mkMediaN 777) "t" "s").1 = Except.error "upload queue is full" :=
  ⟨rfl, by decide,
    (upload_saturation_error.1
      { newMediaUploader 2 with
        queue := List.replicate 100 { media := mkMediaN 0 } }
      (mkMediaN 777) "t" "s" rfl (by decide)).1⟩

/-- Counterexample to C2 as stated: two sequential uploads of
byte-identical content (equal hashes), the first fully completed by a
worker before the second is issued, do NOT return the same id — the
first call returns the media id (the slow path's acknowledgement),
while the second returns the reference id minted by the upload worker —
even though exactly one network upload is performed and the second call
enqueues nothing. -/
theorem upload_dedup_ids_differ :
    c2Run1.1 = Except.ok "4d3c2b1a-0001" ∧
    c2Run2.1 = Except.ok ("media_" ++ uuidStr 0) ∧
    c2Run1.1 ≠ c2Run2.1 ∧
    c2Run2.2.networkUploads = 1 ∧
    c2Run2.2.queue = [] := by
  refine ⟨by decide, by decide, by decide, by decide, by decide⟩

/-- C2 as amended: for two sequential uploads of byte-identical content
where the first reached its terminal state before the second call, the
second call takes the fast path — it returns the cached reference id
immediately, changes no state and enqueues no task — and exactly one
network upload is performed in total; the first call, however, returned
the media id, not the reference id the second call returns. -/
theorem upload_dedup_second_fastpath (mu : MediaUploader) (m m2 : MediaContent)
    (tid sid tid2 sid2 : String)
    (hq : mu.queue = []) (hcap : 0 < mu.queueCap)
    (hd : alookup m.hash mu.dedupCache = none) (hh : m2.hash = m.hash) :
    (upload mu m tid sid).1 = Except.ok m.id ∧
    (upload (workerStep (upload mu m tid sid).2) m2 tid2 sid2).1 =
      Except.ok ("media_" ++ uuidStr mu.nextUuid) ∧
    (upload (workerStep (upload mu m tid sid).2) m2 tid2 sid2).2 =
      workerStep (upload mu m tid sid).2 ∧
    (workerStep (upload mu m tid sid).2).networkUploads =
      mu.networkUploads + 1 ∧
    (workerStep (upload mu m tid sid).2).queue = [] := by
  have h1 : upload mu m tid sid =
      (Except.ok m.id,
        { mu with
          uploads := aset m.id { id := m.id, status := "queued",
                                 startedAt := mu.clock } mu.uploads,
          queue := mu.queue ++ [{ media := m, traceID := tid, spanID := sid }] }) := by
    unfold upload
    rw [hd]
    simp [hq, hcap]
  rw [h1]
  unfold workerStep
  simp only [hq, List.nil_append]
  unfold upload
  rw [hh]
  simp [processUpload, alookup_aset_self]

/-- Witness for C2's amended theorem: the concrete dedup scenario. -/
theorem upload_dedup_second_fastpath_witness :
    (newMediaUploader 2).queue = [] ∧
    alookup c2MediaA.hash (newMediaUploader 2).dedupCache = none ∧
    c2MediaB.hash = c2MediaA.hash ∧
    (upload (workerStep (upload (newMediaUploader 2) c2MediaA "t1" "s1").2)
      c2MediaB "t1" "s1").1 = Except.ok ("media_" ++ uuidStr 0) :=
  ⟨rfl, rfl, rfl,
    (upload_dedup_second_fastpath (newMediaUploader 2) c2MediaA c2MediaB
      "t1" "s1" "t1" "s1" rfl (by decide) rfl rfl).2.1⟩

set_option maxRecDepth 200000 in
/-- Counterexample to C6 as stated: after 101 non-blocking uploads of
distinct contents on a fresh uploader (capacity 100) with busy workers,
the 101st Upload was rejected with the saturation error but its status
entry was already registered as "queued" — and Shutdown, which drains
only the tasks that actually reached the queue, leaves that entry in
state "queued" in the status table. -/
theorem shutdown_leaves_saturated_entry_queued :
    (alookup (mkMediaN 100).id c6Final.uploads).map (fun st => st.status) =
      some "queued" ∧
    ¬ (∀ kv ∈ c6Final.uploads, kv.2.status ≠ "queued" ∧ kv.2.status ≠ "uploading") := by
  have h1 : (alookup (mkMediaN 100).id c6Final.uploads).map (fun st => st.status) =
      some "queued" := by decide
  refine ⟨h1, fun hall => ?_⟩
  obtain ⟨st, hst, hq⟩ := Option.map_eq_some'.mp h1
  exact (hall _ (alookup_mem hst)).1 hq

/-- C6 as amended: Shutdown closes the queue and drains it — after
Shutdown the queue is empty and every task that had actually been
enqueued (and whose media id is registered in the status table; plain
Upload always registers it) has reached the terminal status
"completed", and a status entry once "completed" stays so. However, a
status entry registered by an Upload call that was then rejected with
the saturation error corresponds to no queued task and remains
"queued" after Shutdown. -/
theorem shutdown_drains_queue (mu : MediaUploader) :
    (shutdown mu).queue = [] ∧
    (shutdown mu).closed = true ∧
    (∀ t ∈ mu.queue, (alookup t.media.id mu.uploads).isSome = true →
      ∃ st, alookup t.media.id (shutdown mu).uploads = some st ∧
        st.status = "completed") := by
  refine ⟨?_, ?_, ?_⟩
  · rw [shutdown, drainQueue_queue]
  · rw [shutdown, drainQueue_closed]
  · intro t ht hsome
    exact drainQueue_completes mu.queue _ t ht hsome

/-- Witness for C6's amended theorem: a fresh uploader with one queued
upload; after Shutdown its status entry is "completed". -/
theorem shutdown_drains_queue_witness :
    ({ media := mkMediaN 0, traceID := "t", spanID := "s" } : MediaUploadTask) ∈
      c6W.queue ∧
    (alookup (mkMediaN 0).id c6W.uploads).isSome = true ∧
    ∃ st, alookup (mkMediaN 0).id (shutdown c6W).uploads = some st ∧
      st.status = "completed" :=
  ⟨by decide, by decide,
    (shutdown_drains_queue c6W).2.2
      { media := mkMediaN 0, traceID := "t", spanID := "s" }
      (by decide) (by decide)⟩

/-- C9: WaitForUpload on a media id that was never registered in the
status table fails immediately with the "upload not found" error, for
every timeout value, executing zero sleep intervals (no polling
delay). -/
theorem wait_unknown_id_fails_immediately (mu : MediaUploader) (mediaID : String)
    (timeoutPolls : Nat) (h : alookup mediaID mu.uploads = none) :
    waitForUpload mu mediaID timeoutPolls =
      (Except.error ("upload not found: " ++ mediaID), 0) := by
  cases timeoutPolls with
  | zero => simp [waitForUpload, waitLoop, waitPoll, getStatus, h]
  | succ n => simp [waitForUpload, waitLoop, waitPoll, getStatus, h]

/-- Witness for C9: an unregistered id on a fresh uploader, with a
non-trivial timeout. -/
theorem wait_unknown_id_fails_immediately_witness :
    alookup "never-registered" (newMediaUploader 2).uploads = none ∧
    waitForUpload (newMediaUploader 2) "never-registered" 50 =
      (Except.error ("upload not found: " ++ "never-registered"), 0) :=
  ⟨rfl, wait_unknown_id_fails_immediately (newMediaUploader 2) "never-registered" 50 rfl⟩
